import Mathlib

/-!
Verification of the live-session core of the coding-interview platform:
a shallow embedding of the Execution Coordinator (routes/sessions.ts),
the Remote Execution Gateway and its validator (services/execution.ts),
the local Docker Sandbox Provisioner variants, and the Session Presence
Hub (websocket/handler.ts), together with theorems settling the frozen
claims about them.
-/

set_option autoImplicit false

namespace Interview

/-! ## JavaScript string primitives

The source is TypeScript; these model the JS string operations it uses
(`||` on strings, `trim`, `toLowerCase`, truthiness of a string). -/

/-- Whitespace as JavaScript `\s` / `trim` treat it (ASCII part plus NBSP
and BOM). -/
def isJsWhitespace (c : Char) : Bool :=
  c = ' ' || c = '\t' || c = '\n' || c = '\r' ||
  c = '\x0b' || c = '\x0c' || c = ' ' || c = '﻿'

/-- Model of JavaScript `String.prototype.trim`. -/
def trimJs (s : String) : String :=
  String.mk (((s.data.dropWhile isJsWhitespace).reverse.dropWhile isJsWhitespace).reverse)

/-- Model of JavaScript `String.prototype.toLowerCase` on ASCII input. -/
def toLowerJs (s : String) : String :=
  String.mk (s.data.map Char.toLower)

/-- JavaScript `a || b` on strings: the empty string is falsy. -/
def strOr (a b : String) : String :=
  if a = "" then b else a

/-- Model of `s || undefined`: an empty string becomes an absent field. -/
def strOrNone (s : String) : Option String :=
  if s = "" then none else some s

/-- Model of `o || null` applied to an optional string field: both absence
and the empty string become `null`. -/
def jsOrNull (o : Option String) : Option String :=
  match o with
  | none => none
  | some s => strOrNone s

/-! ## Shared result types (services/execution.ts) -/

/-- Embeds `interface ExecutionResult { output?, error?, executionTime }`. -/
structure ExecutionResult where
  output : Option String
  error : Option String
  executionTime : Nat
deriving DecidableEq

/-- Embeds the `{ valid: boolean; error?: string }` return type of
`validateCode`. -/
structure ValidationCheck where
  valid : Bool
  error : Option String
deriving DecidableEq

/-! ## Remote Execution Gateway
(src/02-coding-interview/packages/backend/src/services/execution.ts) -/

/-- One entry of the `PISTON_LANGUAGES` table. -/
structure PistonLang where
  language : String
  version : String
deriving DecidableEq

/-- Embeds the `PISTON_LANGUAGES` mapping of execution.ts. -/
def PISTON_LANGUAGES : List (String × PistonLang) :=
  [ ("javascript", ⟨"javascript", "18.15.0"⟩),
    ("typescript", ⟨"typescript", "5.0.3"⟩),
    ("python", ⟨"python", "3.10.0"⟩),
    ("java", ⟨"java", "15.0.2"⟩),
    ("go", ⟨"go", "1.16.2"⟩),
    ("rust", ⟨"rust", "1.68.2"⟩),
    ("cpp", ⟨"c++", "10.2.0"⟩) ]

namespace Gateway

/-- Embeds `validateCode` of services/execution.ts (the gateway variant,
which has no dangerous-pattern scan). -/
def validateCode (code language : String) : ValidationCheck :=
  if code = "" ∨ (trimJs code).length = 0 then
    ⟨false, some "Code cannot be empty"⟩
  else if code.length > 50000 then
    ⟨false, some "Code is too long (max 50KB)"⟩
  else
    match List.lookup (toLowerJs language) PISTON_LANGUAGES with
    | none => ⟨false, some ("Unsupported language: " ++ language)⟩
    | some _ => ⟨true, none⟩

end Gateway

/-- The `run` object of a parsed Piston response
(`{ stdout, stderr, code }`); `exitCode` is `none` when `run.code` is
absent. -/
structure PistonRun where
  stdout : String
  stderr : String
  exitCode : Option Int
deriving DecidableEq

/-- One HTTP response from the remote execution service: status, raw body
text, and the parsed `run` payload when the body is Piston JSON. -/
structure HttpResponse where
  status : Nat
  body : String
  run : Option PistonRun
deriving DecidableEq

/-- The fetch API's `Response.ok`: status in the 200-299 range. -/
def HttpResponse.isOk (r : HttpResponse) : Bool :=
  200 ≤ r.status && r.status ≤ 299

/-- Embeds the retry loop of `executeCode` (attempts 0..2, a 300 ms delay
before every attempt after the first, breaking as soon as a response is ok
or its status is not 429). Returns the number of fetches performed, the
delays awaited, and the response the loop left in `response`. -/
def runAttempts (fetchAt : Nat → HttpResponse) : Nat × List Nat × HttpResponse :=
  let r0 := fetchAt 0
  if r0.isOk || r0.status ≠ 429 then (1, [], r0)
  else
    let r1 := fetchAt 1
    if r1.isOk || r1.status ≠ 429 then (2, [300], r1)
    else (3, [300, 300], fetchAt 2)

/-- Embeds the exit-code mapping of `executeCode` on a successful HTTP
response: `code === 0` yields output = stdout and error = stderr (empty
strings becoming absent fields); otherwise error = stderr, falling back to
stdout, falling back to a fixed message, with stdout still carried as
`output`. -/
def pistonMapRun (stdout stderr : String) (exitCode : Option Int) (elapsed : Nat) :
    ExecutionResult :=
  if exitCode = some 0 then
    { output := strOrNone stdout, error := strOrNone stderr, executionTime := elapsed }
  else
    { output := strOrNone stdout,
      error := some (strOr stderr (strOr stdout "Execution failed")),
      executionTime := elapsed }

/-- The observable behaviour of one gateway `executeCode` call: how many
fetches it issued, which delays it awaited, and the result it returned. -/
structure GatewayTrace where
  fetches : Nat
  delays : List Nat
  result : ExecutionResult
deriving DecidableEq

namespace Gateway

/-- Embeds `executeCode` of services/execution.ts. `fetchAt n` is the
response the n-th fetch would produce; `elapsed` models
`Date.now() - startTime`. -/
def executeCode (language : String) (fetchAt : Nat → HttpResponse) (elapsed : Nat) :
    GatewayTrace :=
  match List.lookup (toLowerJs language) PISTON_LANGUAGES with
  | none =>
      ⟨0, [], { output := none,
                error := some ("Unsupported language: " ++ language),
                executionTime := 0 }⟩
  | some _ =>
      let a := runAttempts fetchAt
      let r := a.2.2
      if r.isOk then
        let run := r.run.getD ⟨"", "", none⟩
        ⟨a.1, a.2.1, pistonMapRun run.stdout run.stderr run.exitCode elapsed⟩
      else
        ⟨a.1, a.2.1,
         { output := none,
           error := some ("Execution service error: " ++ toString r.status ++ " - " ++ r.body),
           executionTime := elapsed }⟩

end Gateway

/-! ## Sandbox Provisioner
(the local Docker execution service; exec variant and spawn variant) -/

/-- One entry of the Docker `LANGUAGE_CONFIGS` table. -/
structure LanguageConfig where
  image : String
  command : String → String
  extension : String
  timeout : Nat

/-- Embeds `LANGUAGE_CONFIGS` of the Docker exec variant of the execution
service. -/
def LANGUAGE_CONFIGS : List (String × LanguageConfig) :=
  [ ("javascript",
     ⟨"node:20-alpine", fun file => "node " ++ file, "js", 5000⟩),
    ("typescript",
     ⟨"node:20-alpine", fun file => "npx -y tsx " ++ file, "ts", 10000⟩),
    ("python",
     ⟨"python:3.11-alpine", fun file => "python " ++ file, "py", 5000⟩),
    ("java",
     ⟨"openjdk:17-alpine",
      fun file => "javac " ++ file ++ " && java " ++ (file.replace ".java" ""),
      "java", 10000⟩),
    ("go",
     ⟨"golang:1.21-alpine",
      fun file => "GOCACHE=/tmp/.cache go build -o /tmp/program " ++ file ++ " && /tmp/program",
      "go", 10000⟩),
    ("rust",
     ⟨"rust:1.75-alpine",
      fun file => "rustc " ++ file ++ " -o /tmp/program && /tmp/program",
      "rs", 15000⟩),
    ("cpp",
     ⟨"gcc:13-alpine",
      fun file => "g++ " ++ file ++ " -o /tmp/program && /tmp/program",
      "cpp", 10000⟩) ]

/-- Tokens of the simple regular expressions in `dangerousPatterns`:
a literal run of characters, `\s*`, `\s+`, and the `['"]` quote class. -/
inductive Tok where
  | lit (cs : List Char)
  | ws0
  | ws1
  | quote
deriving DecidableEq

/-- Fuelled matcher for a token sequence against the start of a string;
the fuel only serves termination and `matchesFrom` supplies enough of it
for the result to be exact. -/
def matchesFromFuel : Nat → List Tok → List Char → Bool
  | 0, _, _ => false
  | _ + 1, [], _ => true
  | f + 1, Tok.lit cs :: p, s =>
      cs.isPrefixOf s && matchesFromFuel f p (s.drop cs.length)
  | f + 1, Tok.ws0 :: p, s =>
      matchesFromFuel f p s ||
        (match s with
         | [] => false
         | c :: s2 => isJsWhitespace c && matchesFromFuel f (Tok.ws0 :: p) s2)
  | f + 1, Tok.ws1 :: p, s =>
      (match s with
       | [] => false
       | c :: s2 => isJsWhitespace c && matchesFromFuel f (Tok.ws0 :: p) s2)
  | f + 1, Tok.quote :: p, s =>
      (match s with
       | [] => false
       | c :: s2 => (c = '\'' || c = '"') && matchesFromFuel f p s2)

/-- Whether a token sequence matches a prefix of `s`. Every recursive call
of the matcher decreases the count of tokens plus characters, so
`p.length + s.length + 1` units of fuel are exact. -/
def matchesFrom (p : List Tok) (s : List Char) : Bool :=
  matchesFromFuel (p.length + s.length + 1) p s

/-- Whether a token sequence matches anywhere in `s` (the semantics of
`RegExp.prototype.test`). -/
def matchesAnywhere : List Tok → List Char → Bool
  | p, [] => matchesFrom p []
  | p, c :: s2 => matchesFrom p (c :: s2) || matchesAnywhere p s2

/-- Embeds the six `dangerousPatterns` regular expressions (lower-cased,
matching is done against the lower-cased subject to model the `i` flag). -/
def dangerousPatterns : List (List Tok) :=
  [ [Tok.lit "require".data, Tok.ws0, Tok.lit "(".data, Tok.ws0, Tok.quote,
     Tok.lit "child_process".data, Tok.quote, Tok.ws0, Tok.lit ")".data],
    [Tok.lit "import".data, Tok.ws1, Tok.lit "subprocess".data],
    [Tok.lit "runtime.getruntime()".data],
    [Tok.lit "system".data, Tok.ws0, Tok.lit "(".data],
    [Tok.lit "eval".data, Tok.ws0, Tok.lit "(".data],
    [Tok.lit "exec".data, Tok.ws0, Tok.lit "(".data] ]

/-- Whether some dangerous pattern matches the code, case-insensitively. -/
def dangerousMatch (code : String) : Bool :=
  dangerousPatterns.any (fun p => matchesAnywhere p (code.data.map Char.toLower))

namespace Sandbox

/-- Embeds `validateCode` of the Docker execution service (identical in
the exec and spawn variants): the gateway checks followed by the
dangerous-pattern scan. -/
def validateCode (code language : String) : ValidationCheck :=
  if code = "" ∨ (trimJs code).length = 0 then
    ⟨false, some "Code cannot be empty"⟩
  else if code.length > 50000 then
    ⟨false, some "Code is too long (max 50KB)"⟩
  else
    match List.lookup (toLowerJs language) LANGUAGE_CONFIGS with
    | none => ⟨false, some ("Unsupported language: " ++ language)⟩
    | some _ =>
      if dangerousMatch code then
        ⟨false, some "Code contains potentially dangerous operations that are not allowed"⟩
      else
        ⟨true, none⟩

end Sandbox

/-- Embeds the catch branch of the Docker exec variant of `executeCode`:
the thrown error object carries `killed`, `signal`, the captured partial
`stdout`/`stderr`, and a `message`. -/
def execCatchHandler (killed : Bool) (signal : Option String)
    (stdout stderr message : String) (elapsed : Nat) : ExecutionResult :=
  if killed || signal = some "SIGTERM" then
    { output := none,
      error := some "Execution timeout: Code took too long to execute",
      executionTime := elapsed }
  else
    { output := none,
      error := some (strOr stderr (strOr stdout (strOr message "Execution failed"))),
      executionTime := elapsed }

/-- Embeds the close handler of the Docker spawn variant of `executeCode`:
`killed` is the flag set by the timeout timer before `SIGTERM` was sent,
`exitCode` the process exit code, and `stdout`/`stderr` the streams
accumulated so far. The handler resolves the promise in every case. -/
def spawnCloseHandler (killed : Bool) (exitCode : Option Int)
    (stdout stderr : String) (elapsed : Nat) : ExecutionResult :=
  if killed then
    { output := none,
      error := some "Execution timeout: Code took too long to execute",
      executionTime := elapsed }
  else if exitCode = some 0 then
    { output := strOrNone stdout, error := strOrNone stderr, executionTime := elapsed }
  else
    { output := none,
      error := some (strOr stderr (strOr stdout "Execution failed")),
      executionTime := elapsed }

/-! ## Execution Coordinator (routes/sessions.ts) -/

/-- Embeds the Prisma `InterviewSession` record; timestamps are epoch
milliseconds and `expiresAt` is nullable. -/
structure Session where
  id : String
  createdAt : Nat
  updatedAt : Nat
  expiresAt : Option Nat
  language : String
  code : String
deriving DecidableEq

/-- One row of the `codeExecution` history table, as written by the
execute route. -/
structure HistRec where
  sessionId : String
  code : String
  language : String
  output : Option String
  error : Option String
deriving DecidableEq

/-- The JSON bodies the session routes produce. -/
inductive ResponseBody where
  | jsonError (msg : String)
  | jsonErrorTimed (msg : String) (executionTime : Nat)
  | jsonResult (r : ExecutionResult)
  | jsonSession (s : Session)
deriving DecidableEq

/-- An HTTP response of the session routes. -/
structure Response where
  status : Nat
  body : ResponseBody
deriving DecidableEq

/-- The expiry test of the GET route:
`session.expiresAt && session.expiresAt < new Date()`. -/
def isExpired (s : Session) (now : Nat) : Bool :=
  match s.expiresAt with
  | some e => e < now
  | none => false

/-- Embeds the `GET /sessions/:id` handler: 404 when the session does not
exist, 410 when it exists but its expiry timestamp has passed, otherwise
the session record. -/
def routeGetSession (db : List (String × Session)) (sid : String) (now : Nat) : Response :=
  match List.lookup sid db with
  | none => ⟨404, ResponseBody.jsonError "Session not found"⟩
  | some s =>
      if isExpired s now then ⟨410, ResponseBody.jsonError "Session expired"⟩
      else ⟨200, ResponseBody.jsonSession s⟩

/-- Embeds the `POST /sessions/:id/execute` handler. `execRes` is the
result `executeCode` would return when invoked; `historyOk` is whether the
`codeExecution.create` write succeeds and `histErrMsg` the message of the
error it throws otherwise (caught by the route's catch-all, which answers
500). Returns the response, the history table after the call, and whether
`executeCode` was invoked. -/
def routeExecute (db : List (String × Session)) (hist : List HistRec)
    (sid code language : String) (execRes : ExecutionResult)
    (historyOk : Bool) (histErrMsg : String) : Response × List HistRec × Bool :=
  if code = "" ∨ language = "" then
    (⟨400, ResponseBody.jsonError "Code and language are required"⟩, hist, false)
  else
    match List.lookup sid db with
    | none => (⟨404, ResponseBody.jsonError "Session not found"⟩, hist, false)
    | some _ =>
        let v := Gateway.validateCode code language
        if v.valid then
          if historyOk then
            (⟨200, ResponseBody.jsonResult execRes⟩,
             hist ++ [⟨sid, code, language, jsOrNull execRes.output, jsOrNull execRes.error⟩],
             true)
          else
            (⟨500, ResponseBody.jsonErrorTimed (strOr histErrMsg "Failed to execute code") 0⟩,
             hist, true)
        else
          (⟨400, ResponseBody.jsonError (v.error.getD "")⟩, hist, false)

/-! ## Session Presence Hub (websocket/handler.ts) -/

/-- Embeds the hub's `User` record. -/
structure User where
  id : String
  username : String
  joinedAt : Nat
deriving DecidableEq

/-- Payloads of the events the hub emits. -/
inductive Payload where
  | userJoined (userId : String) (username : Option String) (users : List User)
  | sessionState (s : Session)
  | languageChanged (language : String)
  | userLeft (userId : String) (users : List User)
deriving DecidableEq

/-- One emitted socket event: the connection ids it is delivered to and
its payload. -/
structure Event where
  recipients : List String
  payload : Payload
deriving DecidableEq

/-- Live state of the hub: socket.io room membership pairs
(sessionId, socketId) and the Redis `session:{id}:users` hash entries
(sessionId, socketId, user). -/
structure HubState where
  members : List (String × String)
  redisUsers : List (String × String × User)
deriving DecidableEq

/-- Connection ids currently in the room of a session. -/
def roomMembers (members : List (String × String)) (sid : String) : List String :=
  (members.filter (fun m => m.1 = sid)).map (fun m => m.2)

/-- Redis `hset` on the users hash: replace the field if present,
otherwise append it. -/
def hsetUser (l : List (String × String × User)) (sid uid : String) (u : User) :
    List (String × String × User) :=
  if l.any (fun e => e.1 = sid && e.2.1 = uid) then
    l.map (fun e => if e.1 = sid && e.2.1 = uid then (sid, uid, u) else e)
  else
    l ++ [(sid, uid, u)]

/-- A socket.io `Set.add`: append the element when it is not yet present. -/
def addId (x : String) (xs : List String) : List String :=
  if x ∈ xs then xs else xs ++ [x]

/-- Actions the hub performs, in order: a write of the session's language
to the persistent store, or the emission of an event. -/
inductive HubAct where
  | dbWrite (sid language : String)
  | emit (e : Event)
deriving DecidableEq

/-- Embeds the `join-session` handler: join the room, `hset` the user,
read the hash back, drop entries whose socket is no longer connected,
broadcast `user-joined` with the full set to the session's room, and send
`session-state` to the joining socket alone when the session record
exists. -/
def joinSession (st : HubState) (db : List (String × Session))
    (sessionId socketId : String) (username : Option String) (nowTs : Nat) :
    HubState × List Event :=
  let members1 := st.members ++ [(sessionId, socketId)]
  let user : User :=
    ⟨socketId, username.getD ("User-" ++ String.mk (socketId.data.take 4)), nowTs⟩
  let redis1 := hsetUser st.redisUsers sessionId socketId user
  let connectedSocketIds := addId socketId (roomMembers members1 sessionId)
  let usersData := redis1.filter (fun e => e.1 = sessionId)
  let users := (usersData.filter (fun e => e.2.1 ∈ connectedSocketIds)).map (fun e => e.2.2)
  let redis2 := redis1.filter (fun e => e.1 ≠ sessionId ∨ e.2.1 ∈ connectedSocketIds)
  let ev1 : Event := ⟨roomMembers members1 sessionId,
                      Payload.userJoined socketId username users⟩
  let evs :=
    match List.lookup sessionId db with
    | some s => [ev1, ⟨[socketId], Payload.sessionState s⟩]
    | none => [ev1]
  (⟨members1, redis2⟩, evs)

/-- Whether an event is a `session-state` message. -/
def isSessionStateEvent (e : Event) : Bool :=
  match e.payload with
  | Payload.sessionState _ => true
  | _ => false

/-- Update the persisted language of a session
(`prisma.interviewSession.update`). -/
def dbUpdateLanguage (db : List (String × Session)) (sid lang : String) :
    List (String × Session) :=
  db.map (fun e => if e.1 = sid then (e.1, { e.2 with language := lang }) else e)

/-- Embeds the `language-change` handler: write the new language to the
session record, then broadcast `language-changed` to the session's room
(update throws when the record is missing; the catch swallows it and
nothing is broadcast). Returns the store after the call and the ordered
action trace. -/
def languageChange (st : HubState) (db : List (String × Session))
    (sid lang : String) : List (String × Session) × List HubAct :=
  match List.lookup sid db with
  | none => (db, [])
  | some _ =>
      (dbUpdateLanguage db sid lang,
       [HubAct.dbWrite sid lang,
        HubAct.emit ⟨roomMembers st.members sid, Payload.languageChanged lang⟩])

/-! ## Helper lemmas -/

/-- A 429 response is never `ok`. -/
lemma isOk_of_429 (r : HttpResponse) (h : r.status = 429) : r.isOk = false := by
  simp [HttpResponse.isOk, h]

/-- When the first response is not a 429 the retry loop stops after one
fetch with no delay. -/
lemma runAttempts_single (f : Nat → HttpResponse) (hne : (f 0).status ≠ 429) :
    runAttempts f = (1, [], f 0) := by
  simp only [runAttempts]
  rw [if_pos]
  simp [hne]

/-- Attempt-count and delay facts about the retry loop, independent of
the final outcome mapping. -/
lemma runAttempts_cases (f : Nat → HttpResponse) :
    (runAttempts f).1 ≤ 3 ∧
    (∀ d ∈ (runAttempts f).2.1, d = 300) ∧
    (runAttempts f).2.1.length = (runAttempts f).1 - 1 ∧
    ((f 0).status = 429 → 2 ≤ (runAttempts f).1) ∧
    ((f 0).status = 429 → (f 1).status = 429 →
       (runAttempts f).1 = 3 ∧ (runAttempts f).2.1 = [300, 300]) := by
  simp only [runAttempts]
  split
  · next h0 =>
      refine ⟨by simp, by simp, by simp, ?_, ?_⟩ <;> intro h429
      · rw [isOk_of_429 _ h429] at h0
        simp [h429] at h0
      · rw [isOk_of_429 _ h429] at h0
        simp [h429] at h0
  · next h0 =>
      split
      · next h1 =>
          refine ⟨by simp, by simp, by simp, fun _ => by simp, ?_⟩
          intro _ h429
          rw [isOk_of_429 _ h429] at h1
          simp [h429] at h1
      · next h1 =>
          exact ⟨by simp, by simp, by simp, fun _ => by simp, fun _ _ => ⟨rfl, rfl⟩⟩

/-- The gateway trace's fetch count and delays come straight from the
retry loop, whatever the final response was. -/
lemma executeCode_proj (language : String) (fetchAt : Nat → HttpResponse)
    (elapsed : Nat) (cfg : PistonLang)
    (hc : List.lookup (toLowerJs language) PISTON_LANGUAGES = some cfg) :
    (Gateway.executeCode language fetchAt elapsed).fetches = (runAttempts fetchAt).1 ∧
    (Gateway.executeCode language fetchAt elapsed).delays = (runAttempts fetchAt).2.1 := by
  simp only [Gateway.executeCode, hc]
  constructor <;> (split <;> rfl)

/-- Trimming a string of whitespace only yields the empty string. -/
lemma trimJs_all_ws (s : String) (h : ∀ c ∈ s.data, isJsWhitespace c = true) :
    trimJs s = "" := by
  have h1 : s.data.dropWhile isJsWhitespace = [] :=
    List.dropWhile_eq_nil_iff.mpr h
  simp [trimJs, h1]

/-- An oversized code string fails `validateCode` whatever its content
(with the empty-trim branch taking precedence over the length branch). -/
lemma gateway_validate_oversize (code language : String) (h : code.length > 50000) :
    (Gateway.validateCode code language).valid = false := by
  unfold Gateway.validateCode
  by_cases h1 : code = "" ∨ (trimJs code).length = 0
  · simp [h1]
  · simp [h1, h]

/-- A run of 50001 letters is untouched by trimming. -/
lemma trimJs_replicate_a :
    trimJs (String.mk (List.replicate 50001 'a')) = String.mk (List.replicate 50001 'a') := by
  have hdrop : ∀ (n : Nat),
      (List.replicate (n + 1) 'a').dropWhile isJsWhitespace = List.replicate (n + 1) 'a' := by
    intro n
    rw [List.replicate_succ, List.dropWhile_cons]
    simp [isJsWhitespace]
  show String.mk _ = _
  rw [show (String.mk (List.replicate 50001 'a')).data = List.replicate 50001 'a' from rfl]
  rw [show (50001 : Nat) = 50000 + 1 from rfl, hdrop 50000, List.reverse_replicate,
      hdrop 50000, List.reverse_replicate]

/-- Room membership unfolded: a connection is in a session's room exactly
when the membership pair is registered. -/
lemma roomMembers_mem (ms : List (String × String)) (sid x : String) :
    x ∈ roomMembers ms sid ↔ (sid, x) ∈ ms := by
  simp only [roomMembers, List.mem_map, List.mem_filter, decide_eq_true_eq]
  constructor
  · rintro ⟨⟨a, b⟩, ⟨hmem, ha⟩, hb⟩
    simp only at ha hb
    rw [← ha, ← hb]
    exact hmem
  · intro h
    exact ⟨(sid, x), ⟨h, rfl⟩, rfl⟩

/-- The written field is in the hash after `hset`. -/
lemma hsetUser_mem (l : List (String × String × User)) (sid uid : String) (u : User) :
    (sid, uid, u) ∈ hsetUser l sid uid u := by
  unfold hsetUser
  split
  · next h =>
      obtain ⟨e, hmem, he⟩ := List.any_eq_true.mp h
      refine List.mem_map.mpr ⟨e, hmem, ?_⟩
      rw [if_pos he]
  · next _ =>
      exact List.mem_append_right _ (List.mem_singleton.mpr rfl)

/-- An element is in the set after `Set.add`. -/
lemma addId_mem_self (x : String) (xs : List String) : x ∈ addId x xs := by
  unfold addId
  split
  · next h => exact h
  · next _ => exact List.mem_append_right _ (List.mem_singleton.mpr rfl)

/-- The user list put into the `user-joined` payload (hash entries of the
session filtered to connected sockets) is exactly the session's entries of
the hash left after the stale-entry cleanup. -/
lemma join_users_eq (redis1 : List (String × String × User)) (sid : String)
    (conn : List String) :
    ((redis1.filter (fun e => e.1 = sid)).filter
        (fun e => e.2.1 ∈ conn)).map (fun e => e.2.2)
      = ((redis1.filter (fun e => e.1 ≠ sid ∨ e.2.1 ∈ conn)).filter
          (fun e => e.1 = sid)).map (fun e => e.2.2) := by
  rw [List.filter_filter, List.filter_filter]
  refine congrArg _ (List.filter_congr ?_)
  intro e _
  by_cases h : e.1 = sid <;> by_cases h2 : e.2.1 ∈ conn <;> simp [h, h2]

/-- When the session record exists, a join produces exactly one
`session-state` event, addressed to the joining connection alone and
carrying the record as read from the store. -/
lemma joinSession_state_events (st : HubState) (db : List (String × Session))
    (sid cid : String) (uname : Option String) (ts : Nat) (s : Session)
    (h : List.lookup sid db = some s) :
    (joinSession st db sid cid uname ts).2.filter isSessionStateEvent
      = [⟨[cid], Payload.sessionState s⟩] := by
  simp [joinSession, h, isSessionStateEvent]

/-- Looking a session up after `dbUpdateLanguage` yields the record with
the new language. -/
lemma lookup_dbUpdateLanguage (db : List (String × Session)) (sid lang : String)
    (s : Session) (h : List.lookup sid db = some s) :
    List.lookup sid (dbUpdateLanguage db sid lang) = some { s with language := lang } := by
  induction db with
  | nil => simp [List.lookup] at h
  | cons e tl ih =>
      rw [dbUpdateLanguage, List.map_cons]
      by_cases hk : e.1 = sid
      · rw [if_pos hk]
        have hkb : (sid == e.1) = true := by
          rw [beq_iff_eq]
          exact hk.symm
        simp only [List.lookup, hkb] at h ⊢
        simp only [Option.some.injEq] at h
        rw [h]
      · rw [if_neg hk]
        have hkb : (sid == e.1) = false := by
          rw [beq_eq_false_iff_ne]
          exact fun hx => hk hx.symm
        simp only [List.lookup, hkb] at h ⊢
        exact ih h

/-! ## Claims -/

/-- C3 counterexample: a run stopped at the per-language timeout boundary
by the in-container `timeout` wrapper surfaces host-side as a plain
non-zero exit (the wrapper's kill exit code 124) with the killed flag
unset and no SIGTERM seen, and both variants then return the partial
stdout captured so far instead of the fixed timeout message. -/
theorem inner_timeout_partial_output_cex :
    spawnCloseHandler false (some 124) "partial out" "" 5
      = ⟨none, some "partial out", 5⟩ ∧
    execCatchHandler false none "partial out" "" "Command failed" 5
      = ⟨none, some "partial out", 5⟩ ∧
    ("partial out" : String) ≠ "Execution timeout: Code took too long to execute" := by
  refine ⟨?_, ?_, ?_⟩ <;> decide

/-- C3 (amended): only the Node-side backstop kill — the `killed` flag in
the spawn variant, `error.killed`/SIGTERM in the exec variant, which
fires 2000 ms after the per-language timeout — produces the fixed
"Execution timeout: Code took too long to execute" message with the
partial output discarded; a run stopped by the in-container `timeout`
wrapper at the per-language boundary exits non-zero with the flag unset
and is mapped like any other failed run, its error being stderr, falling
back to the partial stdout, falling back to a default. Both handlers are
total functions of the process outcome, so the call resolves in every
case. -/
theorem timeout_boundary_mapping (stdout stderr message : String)
    (signal : Option String) (exitCode : Option Int) (c : Int) (elapsed : Nat) :
    execCatchHandler true signal stdout stderr message elapsed
      = ⟨none, some "Execution timeout: Code took too long to execute", elapsed⟩ ∧
    execCatchHandler false (some "SIGTERM") stdout stderr message elapsed
      = ⟨none, some "Execution timeout: Code took too long to execute", elapsed⟩ ∧
    spawnCloseHandler true exitCode stdout stderr elapsed
      = ⟨none, some "Execution timeout: Code took too long to execute", elapsed⟩ ∧
    (c ≠ 0 → stderr = "" → stdout ≠ "" →
       spawnCloseHandler false (some c) stdout stderr elapsed
         = ⟨none, some stdout, elapsed⟩) ∧
    (stderr = "" → stdout ≠ "" →
       execCatchHandler false none stdout stderr message elapsed
         = ⟨none, some stdout, elapsed⟩) := by
  refine ⟨?_, ?_, ?_, ?_, ?_⟩ <;> intros <;>
    simp_all [execCatchHandler, spawnCloseHandler, strOr]

/-- Witness for `timeout_boundary_mapping`: the in-container timeout exit
code 124 yields the partial stdout, not the fixed message. -/
theorem timeout_boundary_mapping_witness :
    spawnCloseHandler false (some 124) "loop output" "" 6
      = ⟨none, some "loop output", 6⟩ :=
  (timeout_boundary_mapping "loop output" "" "m" none (some 124) 124 6).2.2.2.1
    (by decide) (by decide) (by decide)

/-- C5: for a program run to completion, exit code 0 yields output =
captured stdout with stderr carried only as a side diagnostic, and a
non-zero exit yields a failure whose error is the captured stderr,
falling back to stdout when stderr is empty — in both the gateway
(Piston) mapping and the spawn-variant close handler. -/
theorem exit_code_mapping (stdout stderr : String) (c : Int) (elapsed : Nat) :
    (pistonMapRun stdout stderr (some 0) elapsed
       = ⟨strOrNone stdout, strOrNone stderr, elapsed⟩) ∧
    (c ≠ 0 → stderr ≠ "" →
       pistonMapRun stdout stderr (some c) elapsed
         = ⟨strOrNone stdout, some stderr, elapsed⟩) ∧
    (c ≠ 0 → stderr = "" → stdout ≠ "" →
       pistonMapRun stdout stderr (some c) elapsed
         = ⟨strOrNone stdout, some stdout, elapsed⟩) ∧
    (spawnCloseHandler false (some 0) stdout stderr elapsed
       = ⟨strOrNone stdout, strOrNone stderr, elapsed⟩) ∧
    (c ≠ 0 → stderr ≠ "" →
       spawnCloseHandler false (some c) stdout stderr elapsed
         = ⟨none, some stderr, elapsed⟩) ∧
    (c ≠ 0 → stderr = "" → stdout ≠ "" →
       spawnCloseHandler false (some c) stdout stderr elapsed
         = ⟨none, some stdout, elapsed⟩) := by
  refine ⟨?_, ?_, ?_, ?_, ?_, ?_⟩ <;>
    intros <;>
    simp_all [pistonMapRun, spawnCloseHandler, strOr]

/-- Witness for `exit_code_mapping` at exit code 1 with both streams
non-empty. -/
theorem exit_code_mapping_witness :
    pistonMapRun "out" "err" (some 1) 7 = ⟨some "out", some "err", 7⟩ :=
  (exit_code_mapping "out" "err" 1 7).2.1 (by decide) (by decide)

/-- C4: for a supported language, the gateway performs at most 3 fetch
attempts, waits the fixed 300 ms delay before each attempt after the
first, keeps retrying only on a 429 status, and surfaces any other
non-success status as a failure after a single attempt, with the response
body inside the diagnostic detail. -/
theorem gateway_retry_policy (language : String) (fetchAt : Nat → HttpResponse)
    (elapsed : Nat)
    (hlang : (List.lookup (toLowerJs language) PISTON_LANGUAGES).isSome = true) :
    (Gateway.executeCode language fetchAt elapsed).fetches ≤ 3 ∧
    (∀ d ∈ (Gateway.executeCode language fetchAt elapsed).delays, d = 300) ∧
    (Gateway.executeCode language fetchAt elapsed).delays.length
      = (Gateway.executeCode language fetchAt elapsed).fetches - 1 ∧
    ((fetchAt 0).status = 429 →
       2 ≤ (Gateway.executeCode language fetchAt elapsed).fetches) ∧
    ((fetchAt 0).status = 429 → (fetchAt 1).status = 429 →
       (Gateway.executeCode language fetchAt elapsed).fetches = 3 ∧
       (Gateway.executeCode language fetchAt elapsed).delays = [300, 300]) ∧
    ((fetchAt 0).status ≠ 429 → (fetchAt 0).isOk = false →
       Gateway.executeCode language fetchAt elapsed
         = ⟨1, [],
            { output := none,
              error := some ("Execution service error: " ++ toString (fetchAt 0).status
                               ++ " - " ++ (fetchAt 0).body),
              executionTime := elapsed }⟩) := by
  obtain ⟨cfg, hc⟩ := Option.isSome_iff_exists.mp hlang
  obtain ⟨hf, hd⟩ := executeCode_proj language fetchAt elapsed cfg hc
  obtain ⟨r1, r2, r3, r4, r5⟩ := runAttempts_cases fetchAt
  refine ⟨by rw [hf]; exact r1, by rw [hd]; exact r2,
          by rw [hd, hf]; exact r3, fun h => by rw [hf]; exact r4 h,
          fun ha hb => by rw [hf, hd]; exact r5 ha hb, ?_⟩
  intro hne hnok
  have hr := runAttempts_single fetchAt hne
  simp [Gateway.executeCode, hc, hr, hnok]

/-- Witness for `gateway_retry_policy`: a single 500 response is not
retried and its body appears in the error detail. -/
theorem gateway_retry_policy_witness :
    Gateway.executeCode "python"
        (fun n => if n = 0 then ⟨500, "boom", none⟩ else ⟨200, "", none⟩) 5
      = ⟨1, [], ⟨none, some "Execution service error: 500 - boom", 5⟩⟩ :=
  (gateway_retry_policy "python"
      (fun n => if n = 0 then ⟨500, "boom", none⟩ else ⟨200, "", none⟩) 5
      (by decide)).2.2.2.2.2 (by decide) (by decide)

/-- C1 counterexample: the execute route runs code against a session
whose expiry timestamp has passed (status 200, execution performed, no
410), and a request with missing code gets 400 before the session
existence check (no 404). -/
theorem execute_ignores_expiry_cex :
    isExpired ⟨"s1", 0, 0, some 0, "javascript", ""⟩ 1000 = true ∧
    routeExecute [("s1", ⟨"s1", 0, 0, some 0, "javascript", ""⟩)] [] "s1"
        "console.log(1)" "javascript" ⟨some "1", none, 3⟩ true ""
      = (⟨200, ResponseBody.jsonResult ⟨some "1", none, 3⟩⟩,
         [⟨"s1", "console.log(1)", "javascript", some "1", none⟩], true) ∧
    routeExecute [] [] "missing" "" "javascript" ⟨none, none, 0⟩ true ""
      = (⟨400, ResponseBody.jsonError "Code and language are required"⟩, [], false) := by
  refine ⟨rfl, ?_, ?_⟩ <;> decide

/-- C1 (amended): the execute route first answers 400 when code or
language is missing, then 404 when the session does not exist; the route
never consults `expiresAt`, so its behaviour is identical for expired and
unexpired sessions, and the 410 SessionExpired answer exists only on
`GET /sessions/:id`. -/
theorem execute_precondition_order (db : List (String × Session))
    (hist : List HistRec) (sid code language : String)
    (execRes : ExecutionResult) (historyOk : Bool) (histErrMsg : String) :
    (code = "" ∨ language = "" →
       routeExecute db hist sid code language execRes historyOk histErrMsg
         = (⟨400, ResponseBody.jsonError "Code and language are required"⟩, hist, false)) ∧
    (code ≠ "" → language ≠ "" → List.lookup sid db = none →
       routeExecute db hist sid code language execRes historyOk histErrMsg
         = (⟨404, ResponseBody.jsonError "Session not found"⟩, hist, false)) ∧
    (∀ (s : Session) (e1 e2 : Option Nat),
       routeExecute [(sid, { s with expiresAt := e1 })] hist sid code language
           execRes historyOk histErrMsg
         = routeExecute [(sid, { s with expiresAt := e2 })] hist sid code language
             execRes historyOk histErrMsg) ∧
    (∀ (s : Session) (now : Nat),
       List.lookup sid db = some s → isExpired s now = true →
       routeGetSession db sid now = ⟨410, ResponseBody.jsonError "Session expired"⟩) := by
  refine ⟨?_, ?_, ?_, ?_⟩
  · intro h
    simp only [routeExecute, if_pos h]
  · intro h1 h2 h3
    simp only [routeExecute, h3, if_neg (by simp [h1, h2] : ¬(code = "" ∨ language = ""))]
  · intro s e1 e2
    by_cases h : code = "" ∨ language = "" <;>
      simp [routeExecute, h, List.lookup]
  · intro s now h1 h2
    simp [routeGetSession, h1, h2]

/-- Witness for `execute_precondition_order`: a request for a session
absent from the store answers 404 with nothing executed. -/
theorem execute_precondition_order_witness :
    routeExecute [] [] "nosuch" "x" "javascript" ⟨none, none, 0⟩ true ""
      = (⟨404, ResponseBody.jsonError "Session not found"⟩, [], false) :=
  (execute_precondition_order [] [] "nosuch" "x" "javascript"
      ⟨none, none, 0⟩ true "").2.1 (by decide) (by decide) rfl

/-- C2 counterexample: when the history-store write fails, the caller
gets a 500 error response instead of the 200 execution result, even
though the execution itself was performed. -/
theorem history_failure_returns_500_cex :
    routeExecute [("s1", ⟨"s1", 0, 0, some 99, "javascript", ""⟩)] [] "s1"
        "console.log(1)" "javascript" ⟨some "1", none, 3⟩ false "db down"
      = (⟨500, ResponseBody.jsonErrorTimed "db down" 0⟩, [], true) ∧
    (500 : Nat) ≠ 200 := by
  constructor <;> decide

/-- C2 (amended): after a completed execution the route writes exactly
one history record, carrying the session id, verbatim code, language and
result fields, before answering 200 with the result — but the write is
not best-effort: when it fails, the caller receives a 500 error response
and not the execution result. -/
theorem history_write_before_return (db : List (String × Session))
    (hist : List HistRec) (sid code language : String) (s : Session)
    (execRes : ExecutionResult) (histErrMsg : String)
    (hs : List.lookup sid db = some s) (hc : code ≠ "") (hl : language ≠ "")
    (hv : (Gateway.validateCode code language).valid = true) :
    routeExecute db hist sid code language execRes true histErrMsg
      = (⟨200, ResponseBody.jsonResult execRes⟩,
         hist ++ [⟨sid, code, language, jsOrNull execRes.output, jsOrNull execRes.error⟩],
         true) ∧
    (routeExecute db hist sid code language execRes false histErrMsg).1.status = 500 ∧
    (routeExecute db hist sid code language execRes false histErrMsg).2.1 = hist := by
  refine ⟨?_, ?_, ?_⟩ <;>
    simp [routeExecute, hs, if_neg (by simp [hc, hl] : ¬(code = "" ∨ language = "")),
          hv]

/-- Witness for `history_write_before_return` on a concrete session,
code and result. -/
theorem history_write_before_return_witness :
    routeExecute [("s1", ⟨"s1", 0, 0, none, "javascript", ""⟩)] [] "s1"
        "1+1" "javascript" ⟨some "2", none, 4⟩ true ""
      = (⟨200, ResponseBody.jsonResult ⟨some "2", none, 4⟩⟩,
         [⟨"s1", "1+1", "javascript", some "2", none⟩], true) :=
  (history_write_before_return [("s1", ⟨"s1", 0, 0, none, "javascript", ""⟩)] []
      "s1" "1+1" "javascript" ⟨"s1", 0, 0, none, "javascript", ""⟩
      ⟨some "2", none, 4⟩ "" rfl (by decide) (by decide) (by decide)).1

/-- C6 counterexample: a 50001-character submission made of spaces is
over the size ceiling, yet the validators answer "Code cannot be empty",
a message that does not name the 50,000-character limit. -/
theorem oversize_whitespace_message_cex :
    (String.mk (List.replicate 50001 ' ')).length > 50000 ∧
    Gateway.validateCode (String.mk (List.replicate 50001 ' ')) "javascript"
      = ⟨false, some "Code cannot be empty"⟩ ∧
    Sandbox.validateCode (String.mk (List.replicate 50001 ' ')) "javascript"
      = ⟨false, some "Code cannot be empty"⟩ := by
  have hws : ∀ c ∈ (String.mk (List.replicate 50001 ' ')).data, isJsWhitespace c = true := by
    intro c hcmem
    have hc := List.eq_of_mem_replicate hcmem
    rw [hc]
    decide
  have ht := trimJs_all_ws _ hws
  refine ⟨?_, ?_, ?_⟩
  · show (List.replicate 50001 ' ').length > 50000
    rw [List.length_replicate]
    decide
  · unfold Gateway.validateCode
    rw [if_pos (Or.inr (by rw [ht]; decide))]
  · unfold Sandbox.validateCode
    rw [if_pos (Or.inr (by rw [ht]; decide))]

/-- C6 (amended): empty or oversized code is rejected with a 400 before
`executeCode` is invoked; when the oversized code has any non-whitespace
content the message names the limit ("Code is too long (max 50KB)"),
while empty or whitespace-only code gets the empty-code message (and the
literally empty string is stopped by the route's required-fields check). -/
theorem size_ceiling_rejection (db : List (String × Session)) (hist : List HistRec)
    (sid code language : String) (s : Session) (execRes : ExecutionResult)
    (historyOk : Bool) (histErrMsg : String) :
    (trimJs code ≠ "" → code.length > 50000 →
       Gateway.validateCode code language = ⟨false, some "Code is too long (max 50KB)"⟩ ∧
       Sandbox.validateCode code language = ⟨false, some "Code is too long (max 50KB)"⟩) ∧
    (code = "" →
       routeExecute db hist sid code language execRes historyOk histErrMsg
         = (⟨400, ResponseBody.jsonError "Code and language are required"⟩, hist, false)) ∧
    (List.lookup sid db = some s → language ≠ "" → code.length > 50000 →
       (routeExecute db hist sid code language execRes historyOk histErrMsg).1.status = 400 ∧
       (routeExecute db hist sid code language execRes historyOk histErrMsg).2.2 = false) := by
  refine ⟨?_, ?_, ?_⟩
  · intro htrim hlen
    have hne : code ≠ "" := by
      intro hx
      exact htrim (by rw [hx]; rfl)
    have hcond : ¬(code = "" ∨ (trimJs code).length = 0) := by
      rintro (hx | hx)
      · exact hne hx
      · refine htrim ?_
        have hnil : (trimJs code).data = [] :=
          List.eq_nil_of_length_eq_zero hx
        exact String.ext (by rw [hnil])
    constructor
    · simp [Gateway.validateCode, hcond, hlen]
    · simp [Sandbox.validateCode, hcond, hlen]
  · intro hx
    simp [routeExecute, hx]
  · intro hs hl hlen
    have hne : code ≠ "" := by
      intro hx
      rw [hx] at hlen
      simp [String.length] at hlen
    have hv := gateway_validate_oversize code language hlen
    constructor <;>
      simp [routeExecute, hs, if_neg (by simp [hne, hl] : ¬(code = "" ∨ language = "")), hv]

/-- Witness for `size_ceiling_rejection`: 50001 letters are rejected with
the limit-naming message. -/
theorem size_ceiling_rejection_witness :
    Gateway.validateCode (String.mk (List.replicate 50001 'a')) "javascript"
      = ⟨false, some "Code is too long (max 50KB)"⟩ ∧
    (routeExecute [("s1", ⟨"s1", 0, 0, none, "javascript", ""⟩)] [] "s1"
        (String.mk (List.replicate 50001 'a')) "javascript"
        ⟨none, none, 0⟩ true "").1.status = 400 := by
  have h1 := (size_ceiling_rejection [("s1", ⟨"s1", 0, 0, none, "javascript", ""⟩)] []
      "s1" (String.mk (List.replicate 50001 'a')) "javascript"
      ⟨"s1", 0, 0, none, "javascript", ""⟩ ⟨none, none, 0⟩ true "")
  have htrim : trimJs (String.mk (List.replicate 50001 'a')) ≠ "" := by
    rw [trimJs_replicate_a]
    intro hx
    have h2 := congrArg String.data hx
    have h3 := congrArg List.length h2
    rw [List.length_replicate] at h3
    exact absurd h3 (by decide)
  have hlen : (String.mk (List.replicate 50001 'a')).length > 50000 := by
    show (List.replicate 50001 'a').length > 50000
    rw [List.length_replicate]
    decide
  exact ⟨(h1.1 htrim hlen).1, (h1.2.2 rfl (by decide) hlen).1⟩

/-- C10: a non-empty code string consisting only of whitespace fails
`validateCode` with "Code cannot be empty" for every language (in both
validator variants), and the execute route turns that into a 400 without
invoking `executeCode`. -/
theorem whitespace_only_rejected (code language : String)
    (hne : code ≠ "") (hws : ∀ c ∈ code.data, isJsWhitespace c = true) :
    Gateway.validateCode code language = ⟨false, some "Code cannot be empty"⟩ ∧
    Sandbox.validateCode code language = ⟨false, some "Code cannot be empty"⟩ ∧
    (∀ (db : List (String × Session)) (hist : List HistRec) (sid : String)
       (s : Session) (execRes : ExecutionResult) (historyOk : Bool) (histErrMsg : String),
       List.lookup sid db = some s → language ≠ "" →
       routeExecute db hist sid code language execRes historyOk histErrMsg
         = (⟨400, ResponseBody.jsonError "Code cannot be empty"⟩, hist, false)) := by
  have ht := trimJs_all_ws code hws
  have hg : Gateway.validateCode code language = ⟨false, some "Code cannot be empty"⟩ := by
    simp [Gateway.validateCode, ht]
  refine ⟨hg, by simp [Sandbox.validateCode, ht], ?_⟩
  intro db hist sid s execRes historyOk histErrMsg hs hl
  simp [routeExecute, hs, if_neg (by simp [hne, hl] : ¬(code = "" ∨ language = "")), hg]

/-- Witness for `whitespace_only_rejected` on a two-space submission. -/
theorem whitespace_only_rejected_witness :
    Gateway.validateCode "  " "python" = ⟨false, some "Code cannot be empty"⟩ ∧
    routeExecute [("s1", ⟨"s1", 0, 0, none, "python", ""⟩)] [] "s1" "  " "python"
        ⟨none, none, 0⟩ true ""
      = (⟨400, ResponseBody.jsonError "Code cannot be empty"⟩, [], false) :=
  ⟨(whitespace_only_rejected "  " "python" (by decide) (by decide)).1,
   (whitespace_only_rejected "  " "python" (by decide) (by decide)).2.2
     [("s1", ⟨"s1", 0, 0, none, "python", ""⟩)] [] "s1"
     ⟨"s1", 0, 0, none, "python", ""⟩ ⟨none, none, 0⟩ true "" rfl (by decide)⟩

/-- C9: for every supported language, once the emptiness and size checks
pass, the Docker-variant `validateCode` answers invalid with the fixed
dangerous-operations message exactly when one of the six case-insensitive
patterns matches the raw text — matching is purely textual, so it fires
even inside string literals or comments — and valid otherwise. -/
theorem dangerous_patterns_reject (code language : String)
    (h1 : ¬(code = "" ∨ (trimJs code).length = 0))
    (h2 : ¬ code.length > 50000)
    (h3 : (List.lookup (toLowerJs language) LANGUAGE_CONFIGS).isSome = true) :
    (dangerousMatch code = true →
       Sandbox.validateCode code language
         = ⟨false, some "Code contains potentially dangerous operations that are not allowed"⟩) ∧
    (dangerousMatch code = false →
       Sandbox.validateCode code language = ⟨true, none⟩) := by
  obtain ⟨cfg, hc⟩ := Option.isSome_iff_exists.mp h3
  constructor <;> intro hm <;>
    simp [Sandbox.validateCode, h1, h2, hc, hm]

/-- Witness for `dangerous_patterns_reject`: an upper-case `EVAL(` inside
a Python string literal and comment line is rejected, and the same line
without it is accepted. -/
theorem dangerous_patterns_reject_witness :
    Sandbox.validateCode "s = \"EVAL( txt\" # note" "python"
      = ⟨false, some "Code contains potentially dangerous operations that are not allowed"⟩ ∧
    Sandbox.validateCode "s = \"text\" # note" "python" = ⟨true, none⟩ :=
  ⟨(dangerous_patterns_reject "s = \"EVAL( txt\" # note" "python"
      (by decide) (by decide) (by decide)).1 (by decide),
   (dangerous_patterns_reject "s = \"text\" # note" "python"
      (by decide) (by decide) (by decide)).2 (by decide)⟩

/-- C7: joining registers the participant under the session (room and
hash), broadcasts one `user-joined` event carrying the new participant's
identity and the full current participant set to exactly the session's
room — which contains the joiner and only connections of that session —
and sends `session-state` once, to the joining connection only, when the
session record exists. -/
theorem join_broadcast (st : HubState) (db : List (String × Session))
    (sid cid : String) (uname : Option String) (ts : Nat) :
    (joinSession st db sid cid uname ts).1.members = st.members ++ [(sid, cid)] ∧
    (∃ u : User, (sid, cid, u) ∈ (joinSession st db sid cid uname ts).1.redisUsers) ∧
    (∃ users : List User,
       (joinSession st db sid cid uname ts).2.head?
         = some ⟨roomMembers (st.members ++ [(sid, cid)]) sid,
                 Payload.userJoined cid uname users⟩ ∧
       users = (((joinSession st db sid cid uname ts).1.redisUsers.filter
                   (fun e => e.1 = sid)).map (fun e => e.2.2))) ∧
    cid ∈ roomMembers (st.members ++ [(sid, cid)]) sid ∧
    (∀ x ∈ roomMembers (st.members ++ [(sid, cid)]) sid,
       (sid, x) ∈ st.members ++ [(sid, cid)]) ∧
    (∀ s : Session, List.lookup sid db = some s →
       (joinSession st db sid cid uname ts).2.filter isSessionStateEvent
         = [⟨[cid], Payload.sessionState s⟩]) ∧
    (List.lookup sid db = none →
       (joinSession st db sid cid uname ts).2.filter isSessionStateEvent = []) := by
  refine ⟨?_, ?_, ?_, ?_, ?_, ?_, ?_⟩
  · simp only [joinSession]
  · refine ⟨⟨cid, uname.getD ("User-" ++ String.mk (cid.data.take 4)), ts⟩, ?_⟩
    simp only [joinSession]
    refine List.mem_filter.mpr ⟨hsetUser_mem _ _ _ _, ?_⟩
    simp [addId_mem_self]
  · refine ⟨_, ?_, rfl⟩
    simp only [joinSession]
    have husers := join_users_eq
      (hsetUser st.redisUsers sid cid
        ⟨cid, uname.getD ("User-" ++ String.mk (cid.data.take 4)), ts⟩)
      sid (addId cid (roomMembers (st.members ++ [(sid, cid)]) sid))
    cases hdb : List.lookup sid db <;>
      simp only [hdb] <;>
      · rw [List.head?]
        exact congrArg some (congrArg _ (congrArg _ husers))
  · exact (roomMembers_mem _ _ _).mpr (List.mem_append_right _ (List.mem_singleton.mpr rfl))
  · intro x hx
    exact (roomMembers_mem _ _ _).mp hx
  · intro s hdb
    simp [joinSession, hdb, isSessionStateEvent]
  · intro hdb
    simp [joinSession, hdb, isSessionStateEvent]

/-- Witness for `join_broadcast`: a second connection joining a concrete
one-member session gets exactly one `session-state` event, addressed to
itself alone. -/
theorem join_broadcast_witness :
    (joinSession ⟨[("s1", "a")], [("s1", "a", ⟨"a", "Alice", 1⟩)]⟩
        [("s1", ⟨"s1", 0, 0, none, "javascript", ""⟩)]
        "s1" "b" (some "Bob") 5).2.filter isSessionStateEvent
      = [⟨["b"], Payload.sessionState ⟨"s1", 0, 0, none, "javascript", ""⟩⟩] :=
  (join_broadcast ⟨[("s1", "a")], [("s1", "a", ⟨"a", "Alice", 1⟩)]⟩
      [("s1", ⟨"s1", 0, 0, none, "javascript", ""⟩)]
      "s1" "b" (some "Bob") 5).2.2.2.2.2.1
    ⟨"s1", 0, 0, none, "javascript", ""⟩ rfl

/-- C8: a language-change on an existing session writes the new language
to the persistent session record and only then broadcasts
`language-changed` to the session's room, sender included; a connection
not yet in the room receives no `language-changed` event, yet any later
join against that session reads the new language in its `session-state`. -/
theorem language_change_persist_then_broadcast (st : HubState)
    (db : List (String × Session)) (sid lang : String) (s : Session)
    (h : List.lookup sid db = some s) :
    List.lookup sid (languageChange st db sid lang).1 = some { s with language := lang } ∧
    (languageChange st db sid lang).2
      = [HubAct.dbWrite sid lang,
         HubAct.emit ⟨roomMembers st.members sid, Payload.languageChanged lang⟩] ∧
    (∀ sender, (sid, sender) ∈ st.members → sender ∈ roomMembers st.members sid) ∧
    (∀ c, (sid, c) ∉ st.members → c ∉ roomMembers st.members sid) ∧
    (∀ (st2 : HubState) (c : String) (uname : Option String) (ts : Nat),
       (joinSession st2 (languageChange st db sid lang).1 sid c uname ts).2.filter
           isSessionStateEvent
         = [⟨[c], Payload.sessionState { s with language := lang }⟩]) := by
  have h1 : List.lookup sid (languageChange st db sid lang).1
      = some { s with language := lang } := by
    simp only [languageChange, h]
    exact lookup_dbUpdateLanguage db sid lang s h
  refine ⟨h1, ?_, ?_, ?_, ?_⟩
  · simp only [languageChange, h]
  · intro sender hs
    exact (roomMembers_mem _ _ _).mpr hs
  · intro c hc hmem
    exact hc ((roomMembers_mem _ _ _).mp hmem)
  · intro st2 c uname ts
    exact joinSession_state_events st2 _ sid c uname ts _ h1

/-- Witness for `language_change_persist_then_broadcast` on a concrete
two-member session: the write precedes the broadcast to both members, and
a later third joiner's `session-state` carries the new language. -/
theorem language_change_persist_then_broadcast_witness :
    (languageChange ⟨[("s1", "a"), ("s1", "b"), ("s2", "z")], []⟩
        [("s1", ⟨"s1", 0, 0, none, "javascript", ""⟩)] "s1" "python").2
      = [HubAct.dbWrite "s1" "python",
         HubAct.emit ⟨["a", "b"], Payload.languageChanged "python"⟩] ∧
    (joinSession ⟨[], []⟩
        (languageChange ⟨[("s1", "a"), ("s1", "b"), ("s2", "z")], []⟩
          [("s1", ⟨"s1", 0, 0, none, "javascript", ""⟩)] "s1" "python").1
        "s1" "c" none 9).2.filter isSessionStateEvent
      = [⟨["c"], Payload.sessionState ⟨"s1", 0, 0, none, "python", ""⟩⟩] :=
  ⟨(language_change_persist_then_broadcast
      ⟨[("s1", "a"), ("s1", "b"), ("s2", "z")], []⟩
      [("s1", ⟨"s1", 0, 0, none, "javascript", ""⟩)] "s1" "python"
      ⟨"s1", 0, 0, none, "javascript", ""⟩ rfl).2.1,
   (language_change_persist_then_broadcast
      ⟨[("s1", "a"), ("s1", "b"), ("s2", "z")], []⟩
      [("s1", ⟨"s1", 0, 0, none, "javascript", ""⟩)] "s1" "python"
      ⟨"s1", 0, 0, none, "javascript", ""⟩ rfl).2.2.2.2 ⟨[], []⟩ "c" none 9⟩

end Interview
